import Mathlib

/-!
Shallow embedding of the company-data pipeline (`src/app.py`) and proofs of
the specification claims about it.

Conventions of the embedding:
* A pandas cell is a `Cell`: a string, a number, or a missing value (`NaN`).
* A DataFrame row is an association list from column name to `Cell`, in
  column order; a DataFrame is the list of its rows.
* `datetime` values relevant here are calendar dates (`DissDate`), compared
  lexicographically by (year, month, day), as `datetime` comparison does for
  midnight timestamps.
* String scanning (`str.split`, `str.strip`, `re.match` on the fixed
  pattern, `strptime` field matching) is modelled structurally over the
  string's character list so that every definition evaluates by `decide`.
* Python functions that can signal failure return `Option`/`Except`.
-/

/-- A pandas cell value: a string, a number, or a missing value (NaN/None). -/
inductive Cell where
  | str (s : String)
  | num (n : Nat)
  | null
deriving DecidableEq, Repr

/-- A DataFrame row: column name / cell pairs in column order. -/
abbrev Row := List (String × Cell)

/-- A DataFrame: list of rows (all sharing one column layout). -/
abbrev DF := List Row

/-- `row[col]`: the cell of a named column (missing column reads as NaN). -/
def cellOf (r : Row) (col : String) : Cell :=
  match r.find? (fun p => p.1 = col) with
  | some p => p.2
  | none => Cell.null

/-- Python `s.split(sep)` over the character list: splits at every
occurrence of `sep`, keeping empty pieces (`"".split(sep) == [""]`). -/
def splitChars (sep : Char) : List Char → List (List Char)
  | [] => [[]]
  | c :: cs =>
    let rest := splitChars sep cs
    if c = sep then [] :: rest
    else
      match rest with
      | r :: rs => (c :: r) :: rs
      | [] => [[c]]

/-- Python `s.strip()` over the character list: drop whitespace from both
ends. -/
def stripChars (cs : List Char) : List Char :=
  ((cs.dropWhile Char.isWhitespace).reverse.dropWhile Char.isWhitespace).reverse

/-- Numeric value of a digit string (used only after an all-digits check). -/
def digitsVal (cs : List Char) : Nat :=
  cs.foldl (fun n c => n * 10 + (c.toNat - 48)) 0

/-- Python `s.isdigit()` for ASCII content: nonempty and all digits. -/
def isdigitChars (cs : List Char) : Bool :=
  !cs.isEmpty && cs.all Char.isDigit

/-- A calendar date as produced by `datetime.strptime` (time part is 0). -/
structure DissDate where
  year : Nat
  month : Nat
  day : Nat
deriving DecidableEq, Repr

/-- `datetime` comparison on dates: lexicographic by (year, month, day). -/
def dateLt (a b : DissDate) : Bool :=
  a.year < b.year ||
    (a.year = b.year && (a.month < b.month ||
      (a.month = b.month && a.day < b.day)))

/-- Gregorian leap-year test, as `datetime` uses for day validation. -/
def isLeapYear (y : Nat) : Bool :=
  y % 4 = 0 && (y % 100 ≠ 0 || y % 400 = 0)

/-- Number of days in a month, as `datetime` validates. -/
def daysInMonth (y m : Nat) : Nat :=
  if m = 2 then (if isLeapYear y then 29 else 28)
  else if m = 4 || m = 6 || m = 9 || m = 11 then 30
  else 31

/-- One numeric field of a `strptime` format directive: nonempty, all
digits, at most `maxLen` digits (`%d`/`%m` take up to 2 digits, `%Y` up to
4). -/
def parseField (cs : List Char) (maxLen : Nat) : Option Nat :=
  if isdigitChars cs && cs.length ≤ maxLen then some (digitsVal cs) else none

/-- `datetime(y, m, d)` construction: validates ranges, else raises
(modelled as `none`). -/
def mkValidDate (y m d : Nat) : Option DissDate :=
  if 1 ≤ y && y ≤ 9999 && 1 ≤ m && m ≤ 12 && 1 ≤ d && d ≤ daysInMonth y m
  then some ⟨y, m, d⟩ else none

/-- `datetime.strptime(s, "%d/%m/%Y")` (`none` when it raises). -/
def strptimeDMY (s : String) : Option DissDate :=
  match splitChars '/' s.toList with
  | [ds, ms, ys] =>
    match parseField ds 2, parseField ms 2, parseField ys 4 with
    | some d, some m, some y => mkValidDate y m d
    | _, _, _ => none
  | _ => none

/-- `datetime.strptime(s, "%Y-%m-%d")` (`none` when it raises). -/
def strptimeISO (s : String) : Option DissDate :=
  match splitChars '-' s.toList with
  | [ys, ms, ds] =>
    match parseField ys 4, parseField ms 2, parseField ds 2 with
    | some y, some m, some d => mkValidDate y m d
    | _, _, _ => none
  | _ => none

/-- `process_dissolution_date` (src/app.py:72-82): NaN or empty string give
`None`; otherwise try `%d/%m/%Y`, then `%Y-%m-%d`, then `None`.  A
non-string cell makes both `strptime` calls raise `TypeError`, which the
bare `except:` clauses also turn into `None`. -/
def process_dissolution_date (date_str : Cell) : Option DissDate :=
  match date_str with
  | Cell.null => none
  | Cell.num _ => none
  | Cell.str s =>
    if s = "" then none
    else
      match strptimeDMY s with
      | some d => some d
      | none => strptimeISO s

/-- The row predicate inside `filter_and_append_data` (src/app.py:86-89):
`isna(parsed) | parsed > datetime(2019, 1, 1)` (a NaT comparison is False,
so the second disjunct only fires on an actual parse). -/
def keepRow (r : Row) : Bool :=
  match process_dissolution_date (cellOf r "dissolution_date") with
  | none => true
  | some d => dateLt ⟨2019, 1, 1⟩ d

/-- `filter_and_append_data` (src/app.py:84-90): boolean-mask row filter. -/
def filter_and_append_data (input_df : DF) : DF :=
  input_df.filter keepRow

instance {ε α : Type} [DecidableEq ε] [DecidableEq α] : DecidableEq (Except ε α) :=
  fun x y =>
    match x, y with
    | Except.ok a, Except.ok b =>
      if h : a = b then isTrue (by rw [h])
      else isFalse (fun hh => h (Except.ok.inj hh))
    | Except.error a, Except.error b =>
      if h : a = b then isTrue (by rw [h])
      else isFalse (fun hh => h (Except.error.inj hh))
    | Except.ok _, Except.error _ => isFalse (fun hh => Except.noConfusion hh)
    | Except.error _, Except.ok _ => isFalse (fun hh => Except.noConfusion hh)

/-- `re.match(r'^[\d\s,]+$', input_str)` from src/app.py:19: at least one
character, all of them digits, whitespace, or commas. -/
def matchesDigitsSpacesCommas (s : String) : Bool :=
  !s.toList.isEmpty && s.toList.all (fun c => c.isDigit || c.isWhitespace || c = ',')

/-- The token list of src/app.py:23: split the input on commas, strip each
piece, drop empties. -/
def manualTokens (s : String) : List String :=
  (((splitChars ',' s.toList).map stripChars).filter
    (fun t => !t.isEmpty)).map String.mk

/-- The per-code loop of src/app.py:27-33: first non-numeric or over-long
token aborts with an error; if all pass, the whole token list is returned. -/
def checkCodesLoop (codes : List String) : List String → Except String (List String)
  | [] => Except.ok codes
  | c :: rest =>
    if !isdigitChars c.toList then
      Except.error ("'" ++ c ++ "' is not a valid number")
    else if c.length > 5 then
      Except.error ("'" ++ c ++ "' is too long (max 5 digits)")
    else checkCodesLoop codes rest

/-- `validate_sic_input` (src/app.py:13-33).  `(False, msg)` is modelled as
`Except.error msg`, `(True, codes)` as `Except.ok codes`. -/
def validate_sic_input (input_str : String) : Except String (List String) :=
  if (stripChars input_str.toList).isEmpty then
    Except.error "Input cannot be empty"
  else if !matchesDigitsSpacesCommas input_str then
    Except.error "Only numbers and commas are allowed"
  else
    let codes := manualTokens input_str
    if codes.isEmpty then Except.error "No valid SIC codes found"
    else checkCodesLoop codes codes

/-- The file-path acceptance test of src/app.py:46: `code.isdigit() and
len(code) <= 5`. -/
def validCodeToken (c : String) : Bool :=
  isdigitChars c.toList && c.length ≤ 5

/-- `read_keywords_from_file` (src/app.py:35-57) after pandas column
extraction: `col` is the first column's non-null values as strings; each is
stripped, then valid codes are kept and invalid ones collected for the
warning message.  Returns `(valid_codes, invalid_codes)`. -/
def read_keywords_from_file (col : List String) : List String × List String :=
  let keywords := col.map (fun s => String.mk (stripChars s.toList))
  keywords.partition validCodeToken

/-- `len(df[df['company_status'] == status])` (src/app.py:95-97). -/
def statusCount (df : DF) (status : String) : Nat :=
  (df.filter (fun r => cellOf r "company_status" = Cell.str status)).length

/-- The per-row value of the derived `dissolution_year` column
(src/app.py:100-102): the parsed date's year, else NaN (`None`). -/
def dissolutionYearCell (r : Row) : Cell :=
  match process_dissolution_date (cellOf r "dissolution_date") with
  | some d => Cell.num d.year
  | none => Cell.null

/-- The in-place assignment `data_df['dissolution_year'] = ...`
(src/app.py:100): appends the derived column to every row. -/
def addDissolutionYearColumn (df : DF) : DF :=
  df.map (fun r => r ++ [("dissolution_year", dissolutionYearCell r)])

/-- The years of the rows whose `dissolution_year` is not NaN
(src/app.py:104): exactly the rows whose dissolution date parses. -/
def dissolutionYearsList (df : DF) : List Nat :=
  df.filterMap
    (fun r => (process_dissolution_date (cellOf r "dissolution_date")).map DissDate.year)

/-- The `stats` dictionary of `process_company_stats` (src/app.py:94-105);
`Dissolution by Year` (`value_counts().to_dict()`) is modelled as the
count-by-year function. -/
structure Stats where
  activeCompanies : Nat
  dissolvedCompanies : Nat
  liquidationCompanies : Nat
  dissolutionByYear : Nat → Nat

/-- `process_company_stats` (src/app.py:92-107).  Besides returning the
stats it mutates its argument by adding the `dissolution_year` column; the
mutated DataFrame is returned as the second component. -/
def process_company_stats (data_df : DF) : Stats × DF :=
  ({ activeCompanies := statusCount data_df "Active",
     dissolvedCompanies := statusCount data_df "Dissolved",
     liquidationCompanies := statusCount data_df "Liquidation",
     dissolutionByYear := fun y => (dissolutionYearsList data_df).count y },
   addDissolutionYearColumn data_df)

/-- `highlight_dissolved_rows` (src/app.py:109-115) on the data rows of a
sheet (header excluded by `min_row=2`): the returned flag says whether the
red fill was applied to every cell of that row.  The code reads
`row[max_col - 1]`, i.e. the LAST column's cell, and compares it with the
string `'Dissolved'`. -/
def highlight_dissolved_rows (dataRows : List (List Cell)) (max_col : Nat) : List Bool :=
  dataRows.map (fun row => decide (row.getD (max_col - 1) Cell.null = Cell.str "Dissolved"))

/-- The cell grid `to_excel` writes below the header row for a DataFrame:
its rows' values in column order. -/
def valuesOf (df : DF) : List (List Cell) :=
  df.map (fun r => r.map Prod.snd)

/-- `df.shape[1]`: the number of columns (rows are uniform, read off the
first). -/
def numColsOf (df : DF) : Nat := (df.headD []).length

/-- Recursion of `drop_duplicates`: keep each element not seen before,
remembering kept elements in `seen`. -/
def dedupAux {α : Type} [DecidableEq α] (seen : List α) : List α → List α
  | [] => []
  | x :: xs =>
    if x ∈ seen then dedupAux seen xs
    else x :: dedupAux (seen ++ [x]) xs

/-- `DataFrame.drop_duplicates` / dict-key first-occurrence order: keep the
first occurrence of each element, delete later equal ones. -/
def drop_duplicates {α : Type} [DecidableEq α] (l : List α) : List α :=
  dedupAux [] l

/-- The three accumulators of the keyword loop in `main`
(src/app.py:152-154): the per-code dict `processed_sheets`, the running
`all_data` concatenation, and the running `active_company_addresses`
concatenation. -/
structure PipelineState where
  processed_sheets : List (String × DF)
  all_data : DF
  active_company_addresses : DF
deriving DecidableEq

/-- Python dict assignment `d[k] = v`: overwrite in place if the key
exists, else append at the end (insertion order preserved). -/
def upsert (m : List (String × DF)) (k : String) (v : DF) : List (String × DF) :=
  if m.any (fun p => p.1 = k) then
    m.map (fun p => if p.1 = k then (k, v) else p)
  else m ++ [(k, v)]

/-- src/app.py:175: the Active rows of a filtered table projected to
`[company_name, registered_office_address]`. -/
def activeProjection (df : DF) : DF :=
  (df.filter (fun r => cellOf r "company_status" = Cell.str "Active")).map
    (fun r => [("company_name", cellOf r "company_name"),
               ("registered_office_address", cellOf r "registered_office_address")])

/-- One iteration of the keyword loop (src/app.py:158-176): a failed fetch
(`download_csv_for_keyword` returned `None`) leaves every accumulator
untouched; a successful fetch filters the table, stores it under the
keyword in `processed_sheets`, and appends to the two concatenations. -/
def pipelineStep (fetch : String → Option DF) (st : PipelineState)
    (keyword : String) : PipelineState :=
  match fetch keyword with
  | none => st
  | some keyword_df =>
    let filtered_df := filter_and_append_data keyword_df
    { processed_sheets := upsert st.processed_sheets keyword filtered_df,
      all_data := st.all_data ++ filtered_df,
      active_company_addresses :=
        st.active_company_addresses ++ activeProjection filtered_df }

/-- The whole keyword loop of `main`, with the Record Fetcher injected. -/
def runPipeline (fetch : String → Option DF) (keywords : List String) : PipelineState :=
  keywords.foldl (pipelineStep fetch) ⟨[], [], []⟩

/-- `all_data` before `drop_duplicates`. -/
def all_data_raw (fetch : String → Option DF) (keywords : List String) : DF :=
  (runPipeline fetch keywords).all_data

/-- The UnifiedTable: `all_data.drop_duplicates()` (src/app.py:180). -/
def unifiedTable (fetch : String → Option DF) (keywords : List String) : DF :=
  drop_duplicates (runPipeline fetch keywords).all_data

/-- The AddressExtract: `active_company_addresses.drop_duplicates()`
(src/app.py:181). -/
def addressExtract (fetch : String → Option DF) (keywords : List String) : DF :=
  drop_duplicates (runPipeline fetch keywords).active_company_addresses

/-- Per-code sheet naming (src/app.py:192): `f"SIC_{sic_code}"[:31]`. -/
def sheetName (sic_code : String) : String :=
  String.mk (("SIC_" ++ sic_code).toList.take 31)

/-- The per-code sheet names the workbook loop emits (src/app.py:190-193),
one per entry of `processed_sheets`. -/
def sheetNames (fetch : String → Option DF) (keywords : List String) : List String :=
  (runPipeline fetch keywords).processed_sheets.map (fun p => sheetName p.1)

/-- The `Master_Data` sheet contents (src/app.py:201): `all_data` as it
stands AFTER `process_company_stats` ran on it, i.e. including the
`dissolution_year` column that src/app.py:100 added in place. -/
def masterDataSheet (fetch : String → Option DF) (keywords : List String) : DF :=
  (process_company_stats (unifiedTable fetch keywords)).2

/-- The stats `main` computes (src/app.py:184). -/
def pipelineStats (fetch : String → Option DF) (keywords : List String) : Stats :=
  (process_company_stats (unifiedTable fetch keywords)).1

/-- A fetched record of a company dissolved on 15/03/2020 (kept by the
date filter). -/
def sampleDissolvedRow : Row :=
  [("company_name", Cell.str "Alpha Ltd"),
   ("registered_office_address", Cell.str "1 High St, LE5"),
   ("company_status", Cell.str "Dissolved"),
   ("dissolution_date", Cell.str "15/03/2020")]

/-- A fetched record of an active company (no dissolution date). -/
def sampleActiveRow : Row :=
  [("company_name", Cell.str "Beta Ltd"),
   ("registered_office_address", Cell.str "2 High St, LE5"),
   ("company_status", Cell.str "Active"),
   ("dissolution_date", Cell.null)]

/-- A fetched record dissolved on 15/03/2018 (dropped by the date filter). -/
def sampleRow2018 : Row :=
  [("company_name", Cell.str "Gamma Ltd"),
   ("registered_office_address", Cell.str "3 High St, LE5"),
   ("company_status", Cell.str "Dissolved"),
   ("dissolution_date", Cell.str "15/03/2018")]

/-- A fetched record dissolved on 20/06/2021 (kept by the date filter). -/
def sampleRow2021 : Row :=
  [("company_name", Cell.str "Delta Ltd"),
   ("registered_office_address", Cell.str "4 High St, LE5"),
   ("company_status", Cell.str "Dissolved"),
   ("dissolution_date", Cell.str "20/06/2021")]

/-- A concrete Record Fetcher: SIC code 62012 yields the two sample rows,
every other code fails to download. -/
def sampleFetch : String → Option DF :=
  fun k => if k = "62012" then some [sampleDissolvedRow, sampleActiveRow] else none

theorem mem_dedupAux {α : Type} [DecidableEq α] (seen : List α) (l : List α) (x : α) :
    x ∈ dedupAux seen l ↔ x ∈ l ∧ x ∉ seen := by
  induction l generalizing seen with
  | nil => simp [dedupAux]
  | cons y ys ih =>
    by_cases hy : y ∈ seen
    · rw [dedupAux, if_pos hy, ih]
      constructor
      · rintro ⟨h1, h2⟩; exact ⟨List.mem_cons_of_mem _ h1, h2⟩
      · rintro ⟨h1, h2⟩
        rcases List.mem_cons.mp h1 with rfl | h1
        · exact absurd hy h2
        · exact ⟨h1, h2⟩
    · rw [dedupAux, if_neg hy]
      constructor
      · intro hx
        rcases List.mem_cons.mp hx with rfl | hx
        · exact ⟨List.mem_cons_self _ _, hy⟩
        · rcases (ih _).mp hx with ⟨h1, h2⟩
          exact ⟨List.mem_cons_of_mem _ h1, fun hc => h2 (List.mem_append_left _ hc)⟩
      · rintro ⟨h1, h2⟩
        rcases List.mem_cons.mp h1 with rfl | h1
        · exact List.mem_cons_self _ _
        · by_cases hxy : x = y
          · exact hxy ▸ List.mem_cons_self _ _
          · refine List.mem_cons_of_mem _ ((ih _).mpr ⟨h1, fun hc => ?_⟩)
            rcases List.mem_append.mp hc with hc | hc
            · exact h2 hc
            · exact hxy (List.mem_singleton.mp hc)

theorem nodup_dedupAux {α : Type} [DecidableEq α] (seen : List α) (l : List α) :
    (dedupAux seen l).Nodup := by
  induction l generalizing seen with
  | nil => simp [dedupAux]
  | cons y ys ih =>
    by_cases hy : y ∈ seen
    · rw [dedupAux, if_pos hy]; exact ih seen
    · rw [dedupAux, if_neg hy]
      refine List.nodup_cons.mpr ⟨fun hc => ?_, ih (seen ++ [y])⟩
      exact ((mem_dedupAux _ _ _).mp hc).2
        (List.mem_append_right _ (List.mem_singleton.mpr rfl))

theorem dedupAux_congr {α : Type} [DecidableEq α] {s₁ s₂ : List α}
    (h : ∀ x, x ∈ s₁ ↔ x ∈ s₂) (l : List α) : dedupAux s₁ l = dedupAux s₂ l := by
  induction l generalizing s₁ s₂ with
  | nil => rfl
  | cons y ys ih =>
    by_cases hy : y ∈ s₁
    · rw [dedupAux, dedupAux, if_pos hy, if_pos ((h y).mp hy)]
      exact ih h
    · rw [dedupAux, dedupAux, if_neg hy, if_neg (fun hc => hy ((h y).mpr hc))]
      refine congrArg (y :: ·) (ih ?_)
      intro x
      rw [List.mem_append, List.mem_append]
      exact or_congr (h x) Iff.rfl

theorem dedupAux_append {α : Type} [DecidableEq α] (seen : List α) (l l' : List α) :
    dedupAux seen (l ++ l') = dedupAux seen l ++ dedupAux (seen ++ l) l' := by
  induction l generalizing seen with
  | nil =>
    rw [List.nil_append, List.append_nil]
    rfl
  | cons y ys ih =>
    by_cases hy : y ∈ seen
    · rw [List.cons_append, dedupAux, if_pos hy, ih, dedupAux, if_pos hy]
      refine congrArg (dedupAux seen ys ++ ·) (dedupAux_congr (fun x => ?_) l')
      rw [List.mem_append, List.mem_append, List.mem_cons]
      constructor
      · rintro (hx | hx)
        · exact Or.inl hx
        · exact Or.inr (Or.inr hx)
      · rintro (hx | rfl | hx)
        · exact Or.inl hx
        · exact Or.inl hy
        · exact Or.inr hx
    · rw [List.cons_append, dedupAux, if_neg hy, ih, dedupAux, if_neg hy,
        List.cons_append, List.append_assoc, List.singleton_append]

theorem dedupAux_eq_nil {α : Type} [DecidableEq α] (seen : List α) (l : List α)
    (h : ∀ x ∈ l, x ∈ seen) : dedupAux seen l = [] := by
  induction l with
  | nil => rfl
  | cons y ys ih =>
    rw [dedupAux, if_pos (h y (List.mem_cons_self _ _))]
    exact ih (fun x hx => h x (List.mem_cons_of_mem _ hx))

theorem mem_drop_duplicates {α : Type} [DecidableEq α] (l : List α) (x : α) :
    x ∈ drop_duplicates l ↔ x ∈ l := by
  simp [drop_duplicates, mem_dedupAux]

theorem nodup_drop_duplicates {α : Type} [DecidableEq α] (l : List α) :
    (drop_duplicates l).Nodup := nodup_dedupAux [] l

theorem drop_duplicates_append_self {α : Type} [DecidableEq α] (l : List α) :
    drop_duplicates (l ++ l) = drop_duplicates l := by
  rw [drop_duplicates, dedupAux_append, dedupAux_eq_nil ([] ++ l) l (by simp),
    List.append_nil]
  rfl

theorem count_drop_duplicates_eq_one {α : Type} [DecidableEq α] {l : List α} {x : α}
    (h : x ∈ l) : (drop_duplicates l).countP (fun y => y = x) = 1 :=
  List.count_eq_one_of_mem (nodup_drop_duplicates l)
    ((mem_drop_duplicates l x).mpr h)

/-- The filtered tables of the successful fetches, in input order. -/
def filteredTables (fetch : String → Option DF) (keywords : List String) : List DF :=
  keywords.filterMap (fun k => (fetch k).map filter_and_append_data)

/-- The per-code Active projections of the successful fetches, in input
order. -/
def activeTables (fetch : String → Option DF) (keywords : List String) : List DF :=
  keywords.filterMap
    (fun k => (fetch k).map (fun df => activeProjection (filter_and_append_data df)))

theorem foldl_all_data (fetch : String → Option DF) (keywords : List String)
    (st : PipelineState) :
    (keywords.foldl (pipelineStep fetch) st).all_data =
      st.all_data ++ (filteredTables fetch keywords).flatten := by
  induction keywords generalizing st with
  | nil => simp [filteredTables]
  | cons k ks ih =>
    cases hk : fetch k with
    | none =>
      simp only [List.foldl_cons, pipelineStep, hk, filteredTables,
        List.filterMap_cons, Option.map_none']
      exact ih st
    | some df =>
      simp only [List.foldl_cons, pipelineStep, hk, filteredTables,
        List.filterMap_cons, Option.map_some', List.flatten_cons]
      rw [ih]
      simp only [List.append_assoc, filteredTables]

theorem foldl_active (fetch : String → Option DF) (keywords : List String)
    (st : PipelineState) :
    (keywords.foldl (pipelineStep fetch) st).active_company_addresses =
      st.active_company_addresses ++ (activeTables fetch keywords).flatten := by
  induction keywords generalizing st with
  | nil => simp [activeTables]
  | cons k ks ih =>
    cases hk : fetch k with
    | none =>
      simp only [List.foldl_cons, pipelineStep, hk, activeTables,
        List.filterMap_cons, Option.map_none']
      exact ih st
    | some df =>
      simp only [List.foldl_cons, pipelineStep, hk, activeTables,
        List.filterMap_cons, Option.map_some', List.flatten_cons]
      rw [ih]
      simp only [List.append_assoc, activeTables]

theorem mem_all_data_raw (fetch : String → Option DF) (keywords : List String) (r : Row) :
    r ∈ all_data_raw fetch keywords ↔
      ∃ k ∈ keywords, ∃ df, fetch k = some df ∧ r ∈ filter_and_append_data df := by
  rw [all_data_raw, runPipeline, foldl_all_data]
  rw [show (PipelineState.mk [] [] []).all_data = [] from rfl, List.nil_append]
  constructor
  · intro h
    rcases List.mem_flatten.mp h with ⟨t, ht, hr⟩
    rcases List.mem_filterMap.mp ht with ⟨k, hk, hfk⟩
    rcases Option.map_eq_some'.mp hfk with ⟨df, hdf, hdf2⟩
    exact ⟨k, hk, df, hdf, hdf2 ▸ hr⟩
  · rintro ⟨k, hk, df, hdf, hr⟩
    refine List.mem_flatten.mpr ⟨filter_and_append_data df, ?_, hr⟩
    exact List.mem_filterMap.mpr ⟨k, hk, by rw [hdf]; rfl⟩

theorem mem_active_raw (fetch : String → Option DF) (keywords : List String) (a : Row) :
    a ∈ (runPipeline fetch keywords).active_company_addresses ↔
      ∃ k ∈ keywords, ∃ df, fetch k = some df ∧
        a ∈ activeProjection (filter_and_append_data df) := by
  rw [runPipeline, foldl_active]
  rw [show (PipelineState.mk [] [] []).active_company_addresses = [] from rfl,
    List.nil_append]
  constructor
  · intro h
    rcases List.mem_flatten.mp h with ⟨t, ht, ha⟩
    rcases List.mem_filterMap.mp ht with ⟨k, hk, hfk⟩
    rcases Option.map_eq_some'.mp hfk with ⟨df, hdf, hdf2⟩
    exact ⟨k, hk, df, hdf, hdf2 ▸ ha⟩
  · rintro ⟨k, hk, df, hdf, ha⟩
    refine List.mem_flatten.mpr ⟨activeProjection (filter_and_append_data df), ?_, ha⟩
    exact List.mem_filterMap.mpr ⟨k, hk, by rw [hdf]; rfl⟩

theorem keys_upsert (m : List (String × DF)) (k : String) (v : DF) :
    (upsert m k v).map Prod.fst =
      if k ∈ m.map Prod.fst then m.map Prod.fst else m.map Prod.fst ++ [k] := by
  have hany : (m.any (fun p => p.1 = k) = true) ↔ k ∈ m.map Prod.fst := by
    rw [List.any_eq_true]
    constructor
    · rintro ⟨p, hp, hpk⟩
      exact List.mem_map.mpr ⟨p, hp, of_decide_eq_true hpk⟩
    · intro h
      rcases List.mem_map.mp h with ⟨p, hp, hpk⟩
      exact ⟨p, hp, decide_eq_true hpk⟩
  unfold upsert
  by_cases h : k ∈ m.map Prod.fst
  · rw [if_pos (hany.mpr h), if_pos h, List.map_map]
    refine List.map_congr_left (fun p _ => ?_)
    by_cases hp : p.1 = k
    · simp [hp]
    · simp [hp]
  · rw [if_neg (fun hc => h (hany.mp hc)), if_neg h, List.map_append]
    rfl

theorem foldl_sheets_keys (fetch : String → Option DF) (keywords : List String)
    (st : PipelineState) :
    (keywords.foldl (pipelineStep fetch) st).processed_sheets.map Prod.fst =
      st.processed_sheets.map Prod.fst ++
        dedupAux (st.processed_sheets.map Prod.fst)
          (keywords.filter (fun k => (fetch k).isSome)) := by
  induction keywords generalizing st with
  | nil => simp [dedupAux]
  | cons k ks ih =>
    cases hk : fetch k with
    | none =>
      simp only [List.foldl_cons, pipelineStep, hk, List.filter_cons,
        Option.isSome_none, Bool.false_eq_true, if_false]
      exact ih st
    | some df =>
      simp only [List.foldl_cons, pipelineStep, hk, List.filter_cons,
        Option.isSome_some, if_true]
      rw [ih, keys_upsert]
      by_cases hmem : k ∈ st.processed_sheets.map Prod.fst
      · rw [if_pos hmem, dedupAux, if_pos hmem]
      · rw [if_neg hmem, dedupAux, if_neg hmem, List.append_assoc,
          List.singleton_append]

theorem checkCodesLoop_error (all l : List String) (c : String)
    (hc : c ∈ l) (hbad : validCodeToken c = false) :
    ∃ msg, checkCodesLoop all l = Except.error msg := by
  induction l with
  | nil => cases hc
  | cons c' rest ih =>
    cases h1 : isdigitChars c'.toList with
    | false =>
      refine ⟨"'" ++ c' ++ "' is not a valid number", ?_⟩
      rw [checkCodesLoop, h1, if_pos (by decide : ((!false) = true))]
    | true =>
      by_cases h2 : c'.length > 5
      · refine ⟨"'" ++ c' ++ "' is too long (max 5 digits)", ?_⟩
        rw [checkCodesLoop, h1, if_neg (by decide), if_pos h2]
      · have hstep : checkCodesLoop all (c' :: rest) = checkCodesLoop all rest := by
          rw [checkCodesLoop, h1, if_neg (by decide), if_neg h2]
        rw [hstep]
        rcases List.mem_cons.mp hc with rfl | hc'
        · exfalso
          have hg : validCodeToken c = true := by
            rw [validCodeToken, h1]
            simp only [Bool.true_and, decide_eq_true_eq]
            exact Nat.le_of_not_lt h2
          rw [hg] at hbad
          cases hbad
        · exact ih hc'

theorem checkCodesLoop_ok_or_error (all l : List String) :
    checkCodesLoop all l = Except.ok all ∨
      ∃ msg, checkCodesLoop all l = Except.error msg := by
  induction l with
  | nil => exact Or.inl rfl
  | cons c rest ih =>
    cases h1 : isdigitChars c.toList with
    | false =>
      refine Or.inr ⟨"'" ++ c ++ "' is not a valid number", ?_⟩
      rw [checkCodesLoop, h1, if_pos (by decide : ((!false) = true))]
    | true =>
      by_cases h2 : c.length > 5
      · refine Or.inr ⟨"'" ++ c ++ "' is too long (max 5 digits)", ?_⟩
        rw [checkCodesLoop, h1, if_neg (by decide), if_pos h2]
      · have hstep : checkCodesLoop all (c :: rest) = checkCodesLoop all rest := by
          rw [checkCodesLoop, h1, if_neg (by decide), if_neg h2]
        rw [hstep]
        exact ih

/-- C1: the Date Filter keeps a record iff its dissolution_date parses to
no date (missing/empty/unparseable) or the parsed date is strictly after
2019-01-01; concretely, a row dated "15/03/2018" is excluded and a row
dated "20/06/2021" is retained. -/
theorem c1_date_filter_cutoff :
    (∀ (df : DF) (r : Row),
        r ∈ filter_and_append_data df ↔
          r ∈ df ∧
            (process_dissolution_date (cellOf r "dissolution_date") = none ∨
              ∃ d, process_dissolution_date (cellOf r "dissolution_date") = some d ∧
                dateLt ⟨2019, 1, 1⟩ d = true)) ∧
      filter_and_append_data [sampleRow2018, sampleRow2021] = [sampleRow2021] := by
  constructor
  · intro df r
    rw [filter_and_append_data, List.mem_filter]
    refine and_congr_right (fun _ => ?_)
    cases h : process_dissolution_date (cellOf r "dissolution_date") with
    | none => simp [keepRow, h]
    | some d => simp [keepRow, h]
  · decide

/-- C2: `process_dissolution_date` is total: every input yields a parsed
date or no date; NaN and the empty string yield no date, otherwise
`%d/%m/%Y` is attempted first, then `%Y-%m-%d`, and on double failure the
result is no date. -/
theorem c2_process_dissolution_date_total :
    (∀ c : Cell, process_dissolution_date c = none ∨
        ∃ d, process_dissolution_date c = some d) ∧
      process_dissolution_date Cell.null = none ∧
      process_dissolution_date (Cell.str "") = none ∧
      (∀ s : String, s ≠ "" → ∀ d, strptimeDMY s = some d →
        process_dissolution_date (Cell.str s) = some d) ∧
      (∀ s : String, s ≠ "" → strptimeDMY s = none →
        process_dissolution_date (Cell.str s) = strptimeISO s) := by
  refine ⟨?_, rfl, by decide, ?_, ?_⟩
  · intro c
    cases h : process_dissolution_date c with
    | none => exact Or.inl rfl
    | some d => exact Or.inr ⟨d, rfl⟩
  · intro s hs d hd
    rw [process_dissolution_date, if_neg hs, hd]
  · intro s hs hd
    rw [process_dissolution_date, if_neg hs, hd]

/-- Witness for C2: the hypotheses hold and the theorem applies at
"15/03/2018" (first format succeeds) and at "2019-05-04" (first format
fails, ISO attempted). -/
theorem c2_witness :
    process_dissolution_date (Cell.str "15/03/2018") = some ⟨2018, 3, 15⟩ ∧
      process_dissolution_date (Cell.str "2019-05-04") = strptimeISO "2019-05-04" :=
  ⟨c2_process_dissolution_date_total.2.2.2.1 "15/03/2018" (by decide)
      ⟨2018, 3, 15⟩ (by decide),
    c2_process_dissolution_date_total.2.2.2.2 "2019-05-04" (by decide) (by decide)⟩

/-- C3: validation is asymmetric between the manual path (one invalid
token rejects the whole batch) and the file path (invalid tokens are
dropped with a warning, valid ones survive); on codes 62012 and 999999 the
file path keeps only 62012 while the manual path rejects everything. -/
theorem c3_validation_asymmetry :
    validate_sic_input "62012, 999999" =
        Except.error "'999999' is too long (max 5 digits)" ∧
      read_keywords_from_file ["62012", "999999"] = (["62012"], ["999999"]) ∧
      (∀ s c, c ∈ manualTokens s → validCodeToken c = false →
        ∃ msg, validate_sic_input s = Except.error msg) ∧
      (∀ col, read_keywords_from_file col =
        ((col.map (fun s => String.mk (stripChars s.toList))).filter validCodeToken,
          (col.map (fun s => String.mk (stripChars s.toList))).filter
            (fun c => !validCodeToken c))) := by
  refine ⟨by decide, by decide, ?_, ?_⟩
  · intro s c hc hbad
    cases h1 : (stripChars s.toList).isEmpty with
    | true =>
      refine ⟨"Input cannot be empty", ?_⟩
      simp only [validate_sic_input]
      rw [if_pos h1]
    | false =>
      cases h2 : matchesDigitsSpacesCommas s with
      | false =>
        refine ⟨"Only numbers and commas are allowed", ?_⟩
        simp only [validate_sic_input]
        rw [if_neg (by rw [h1]; decide), if_pos (by rw [h2]; decide)]
      | true =>
        have h3 : (manualTokens s).isEmpty = false := by
          cases h3 : (manualTokens s).isEmpty with
          | false => rfl
          | true =>
            rw [List.isEmpty_iff] at h3
            rw [h3] at hc
            cases hc
        rcases checkCodesLoop_error (manualTokens s) (manualTokens s) c hc hbad with
          ⟨msg, hmsg⟩
        refine ⟨msg, ?_⟩
        simp only [validate_sic_input]
        rw [if_neg (by rw [h1]; decide), if_neg (by rw [h2]; decide),
          if_neg (by rw [h3]; decide), hmsg]
  · intro col
    simp only [read_keywords_from_file]
    rw [List.partition_eq_filter_filter]
    rfl

/-- Witness for C3: the strict-manual conjunct applies at the concrete
batch "62012, 999999" with invalid token "999999". -/
theorem c3_witness :
    "999999" ∈ manualTokens "62012, 999999" ∧
      validCodeToken "999999" = false ∧
      ∃ msg, validate_sic_input "62012, 999999" = Except.error msg :=
  ⟨by decide, by decide,
    c3_validation_asymmetry.2.2.1 "62012, 999999" "999999" (by decide) (by decide)⟩

/-- C7 counterexample: the manual validator does NOT accept
whitespace-separated codes; "62012 62020" is split only on commas, so the
single token "62012 62020" fails `isdigit` and the whole input is
rejected. -/
theorem c7_counterexample :
    validate_sic_input "62012 62020" =
      Except.error "'62012 62020' is not a valid number" := by decide

/-- C7 amended: the manual validator splits on commas only (whitespace
around commas is trimmed, whitespace alone does not separate codes):
comma-separated inputs with the same codes succeed, the whitespace-only
input fails, and any successful validation returns exactly the
comma-split trimmed tokens. -/
theorem c7_amended_commas_only :
    validate_sic_input "62012,62020" = Except.ok ["62012", "62020"] ∧
      validate_sic_input " 62012 , 62020 " = Except.ok ["62012", "62020"] ∧
      validate_sic_input "62012 62020" =
        Except.error "'62012 62020' is not a valid number" ∧
      (∀ s, validate_sic_input s = Except.ok (manualTokens s) ∨
        ∃ msg, validate_sic_input s = Except.error msg) := by
  refine ⟨by decide, by decide, by decide, ?_⟩
  intro s
  cases h1 : (stripChars s.toList).isEmpty with
  | true =>
    refine Or.inr ⟨"Input cannot be empty", ?_⟩
    simp only [validate_sic_input]
    rw [if_pos h1]
  | false =>
    cases h2 : matchesDigitsSpacesCommas s with
    | false =>
      refine Or.inr ⟨"Only numbers and commas are allowed", ?_⟩
      simp only [validate_sic_input]
      rw [if_neg (by rw [h1]; decide), if_pos (by rw [h2]; decide)]
    | true =>
      cases h3 : (manualTokens s).isEmpty with
      | true =>
        refine Or.inr ⟨"No valid SIC codes found", ?_⟩
        simp only [validate_sic_input]
        rw [if_neg (by rw [h1]; decide), if_neg (by rw [h2]; decide), if_pos h3]
      | false =>
        rcases checkCodesLoop_ok_or_error (manualTokens s) (manualTokens s) with
          hok | ⟨msg, herr⟩
        · refine Or.inl ?_
          simp only [validate_sic_input]
          rw [if_neg (by rw [h1]; decide), if_neg (by rw [h2]; decide),
            if_neg (by rw [h3]; decide), hok]
        · refine Or.inr ⟨msg, ?_⟩
          simp only [validate_sic_input]
          rw [if_neg (by rw [h1]; decide), if_neg (by rw [h2]; decide),
            if_neg (by rw [h3]; decide), herr]

/-- C4 counterexample: `process_company_stats` does mutate its argument —
it appends a `dissolution_year` column — so the table afterwards does not
have exactly the Aggregator's columns and `Master_Data` is not the
UnifiedTable exactly. -/
theorem c4_counterexample :
    (process_company_stats [sampleDissolvedRow]).2 ≠ [sampleDissolvedRow] ∧
      masterDataSheet sampleFetch ["62012"] ≠ unifiedTable sampleFetch ["62012"] ∧
      (masterDataSheet sampleFetch ["62012"]).map (fun r => r.map Prod.fst) =
        [["company_name", "registered_office_address", "company_status",
            "dissolution_date", "dissolution_year"],
          ["company_name", "registered_office_address", "company_status",
            "dissolution_date", "dissolution_year"]] := by
  refine ⟨by decide, by decide, by decide⟩

/-- C4 amended: `process_company_stats` appends exactly one derived column
`dissolution_year` to the UnifiedTable in place, leaving every existing
cell unchanged; Master_Data therefore holds the UnifiedTable's rows each
extended by that single column, and dropping the last column of every
Master_Data row recovers the UnifiedTable exactly. -/
theorem c4_amended_master_data_extra_column :
    ∀ (df : DF),
      ((process_company_stats df).2).map List.dropLast = df ∧
        ((process_company_stats df).2).map (fun r => r.map Prod.fst) =
          df.map (fun r => r.map Prod.fst ++ ["dissolution_year"]) := by
  intro df
  constructor
  · show (addDissolutionYearColumn df).map List.dropLast = df
    rw [addDissolutionYearColumn, List.map_map]
    conv_rhs => rw [← List.map_id df]
    refine List.map_congr_left (fun r _ => ?_)
    exact List.dropLast_concat
  · show (addDissolutionYearColumn df).map (fun r => r.map Prod.fst) =
      df.map (fun r => r.map Prod.fst ++ ["dissolution_year"])
    rw [addDissolutionYearColumn, List.map_map]
    refine List.map_congr_left (fun r _ => ?_)
    simp

/-- C5 (code bug): in `Master_Data` a data row whose `company_status` is
"Dissolved" is NOT highlighted: `highlight_dissolved_rows` compares the
LAST cell of each row with 'Dissolved', and after `process_company_stats`
the last column of `all_data` is the appended `dissolution_year`, never
the string 'Dissolved'. -/
theorem c5_master_data_dissolved_not_highlighted :
    cellOf sampleDissolvedRow "company_status" = Cell.str "Dissolved" ∧
      sampleDissolvedRow ∈ unifiedTable sampleFetch ["62012"] ∧
      highlight_dissolved_rows (valuesOf (masterDataSheet sampleFetch ["62012"]))
          (numColsOf (masterDataSheet sampleFetch ["62012"])) = [false, false] := by
  refine ⟨by decide, by decide, by decide⟩

/-- C6 counterexample: a Code whose fetch failed contributes no sheet at
all (the claim says it still contributes an empty one), and two
occurrences of the same Code yield a single sheet, not one per occurrence. -/
theorem c6_counterexample :
    sheetNames sampleFetch ["99999", "62012"] = ["SIC_62012"] ∧
      sheetNames sampleFetch ["62012", "62012"] = ["SIC_62012"] := by
  refine ⟨by decide, by decide⟩

/-- C6 amended: the workbook has exactly one per-code sheet for each
DISTINCT Code whose fetch succeeded, in first-occurrence order, named
"SIC_" + code truncated to 31 characters; Codes whose fetch failed are
omitted and duplicate occurrences collapse into one sheet. -/
theorem c6_amended_sheets :
    ∀ (fetch : String → Option DF) (keywords : List String),
      sheetNames fetch keywords =
        (drop_duplicates (keywords.filter (fun k => (fetch k).isSome))).map
          sheetName := by
  intro fetch keywords
  have hmm : (runPipeline fetch keywords).processed_sheets.map
      (fun p => sheetName p.1) =
      ((runPipeline fetch keywords).processed_sheets.map Prod.fst).map sheetName := by
    rw [List.map_map]
    rfl
  rw [sheetNames, hmm, runPipeline, foldl_sheets_keys]
  rw [show (PipelineState.mk [] [] []).processed_sheets = [] from rfl]
  rw [List.map_nil, List.nil_append]
  rfl

/-- C8: cross-code deduplication is by full-row equality: any row fetched
by some Code appears exactly once in the UnifiedTable; deduplication of a
table merged with itself yields the deduplicated table, and running the
pipeline on a duplicated Code equals running it on the Code once. -/
theorem c8_unified_dedup :
    (∀ (fetch : String → Option DF) (keywords : List String) (r : Row),
        r ∈ all_data_raw fetch keywords →
          (unifiedTable fetch keywords).countP (fun x => x = r) = 1) ∧
      (∀ (t : DF), drop_duplicates (t ++ t) = drop_duplicates t) ∧
      (∀ (fetch : String → Option DF) (k : String),
        unifiedTable fetch [k, k] = unifiedTable fetch [k]) := by
  refine ⟨?_, ?_, ?_⟩
  · intro fetch keywords r hr
    exact count_drop_duplicates_eq_one hr
  · intro t
    exact drop_duplicates_append_self t
  · intro fetch k
    rw [unifiedTable, unifiedTable, runPipeline, runPipeline, foldl_all_data,
      foldl_all_data]
    rw [show (PipelineState.mk [] [] []).all_data = [] from rfl, List.nil_append,
      List.nil_append]
    cases hk : fetch k with
    | none =>
      have h2 : filteredTables fetch [k, k] = [] := by
        simp [filteredTables, hk]
      have h1 : filteredTables fetch [k] = [] := by
        simp [filteredTables, hk]
      rw [h1, h2]
    | some df =>
      have h2 : filteredTables fetch [k, k] =
          [filter_and_append_data df, filter_and_append_data df] := by
        simp [filteredTables, hk]
      have h1 : filteredTables fetch [k] = [filter_and_append_data df] := by
        simp [filteredTables, hk]
      rw [h1, h2]
      simp only [List.flatten_cons, List.flatten_nil, List.append_nil]
      exact drop_duplicates_append_self _

/-- Witness for C8: the sample dissolved row is fetched and appears exactly
once in the UnifiedTable. -/
theorem c8_witness :
    sampleDissolvedRow ∈ all_data_raw sampleFetch ["62012"] ∧
      (unifiedTable sampleFetch ["62012"]).countP
        (fun x => x = sampleDissolvedRow) = 1 :=
  ⟨by decide, c8_unified_dedup.1 sampleFetch ["62012"] sampleDissolvedRow (by decide)⟩

/-- C9: every AddressExtract row is the (company_name,
registered_office_address) projection of a row of the UnifiedTable whose
company_status is "Active", and AddressExtract has no duplicate rows. -/
theorem c9_address_extract_from_unified :
    (∀ (fetch : String → Option DF) (keywords : List String) (a : Row),
        a ∈ addressExtract fetch keywords →
          ∃ r ∈ unifiedTable fetch keywords,
            cellOf r "company_status" = Cell.str "Active" ∧
            a = [("company_name", cellOf r "company_name"),
                 ("registered_office_address", cellOf r "registered_office_address")]) ∧
      (∀ (fetch : String → Option DF) (keywords : List String),
        (addressExtract fetch keywords).Nodup) := by
  constructor
  · intro fetch keywords a ha
    rw [addressExtract] at ha
    have ha' := (mem_drop_duplicates _ _).mp ha
    rcases (mem_active_raw fetch keywords a).mp ha' with ⟨k, hk, df, hdf, hap⟩
    rw [activeProjection] at hap
    rcases List.mem_map.mp hap with ⟨r, hrf, hra⟩
    have hr1 := List.mem_filter.mp hrf
    refine ⟨r, ?_, ?_, hra.symm⟩
    · rw [unifiedTable]
      refine (mem_drop_duplicates _ _).mpr ?_
      exact (mem_all_data_raw fetch keywords r).mpr ⟨k, hk, df, hdf, hr1.1⟩
    · exact of_decide_eq_true hr1.2
  · intro fetch keywords
    exact nodup_drop_duplicates _

/-- Witness for C9: the single AddressExtract row of the sample run comes
from an Active row of the UnifiedTable. -/
theorem c9_witness :
    [("company_name", Cell.str "Beta Ltd"),
        ("registered_office_address", Cell.str "2 High St, LE5")] ∈
      addressExtract sampleFetch ["62012"] ∧
      ∃ r ∈ unifiedTable sampleFetch ["62012"],
        cellOf r "company_status" = Cell.str "Active" ∧
        [("company_name", Cell.str "Beta Ltd"),
          ("registered_office_address", Cell.str "2 High St, LE5")] =
          [("company_name", cellOf r "company_name"),
            ("registered_office_address", cellOf r "registered_office_address")] :=
  ⟨by decide,
    c9_address_extract_from_unified.1 sampleFetch ["62012"]
      [("company_name", Cell.str "Beta Ltd"),
        ("registered_office_address", Cell.str "2 High St, LE5")] (by decide)⟩

/-- C10: every year with a nonzero entry in the `Dissolution by Year`
histogram of a pipeline run is at least 2019, because the histogram is
computed from rows that survived the date filter. -/
theorem c10_histogram_years_ge_2019 :
    ∀ (fetch : String → Option DF) (keywords : List String) (y : Nat),
      (pipelineStats fetch keywords).dissolutionByYear y ≠ 0 → 2019 ≤ y := by
  intro fetch keywords y hy
  have hy' : (dissolutionYearsList (unifiedTable fetch keywords)).count y ≠ 0 := hy
  have hmem : y ∈ dissolutionYearsList (unifiedTable fetch keywords) := by
    by_contra hnm
    exact hy' (List.count_eq_zero.mpr hnm)
  rcases List.mem_filterMap.mp hmem with ⟨r, hr, hparse⟩
  rcases Option.map_eq_some'.mp hparse with ⟨d, hd, hdy⟩
  have hru : r ∈ all_data_raw fetch keywords :=
    (mem_drop_duplicates _ _).mp hr
  rcases (mem_all_data_raw fetch keywords r).mp hru with ⟨k, hk, df, hdf, hrf⟩
  rw [filter_and_append_data] at hrf
  have hkeep : keepRow r = true := (List.mem_filter.mp hrf).2
  rw [keepRow, hd] at hkeep
  simp only [dateLt, Bool.or_eq_true, Bool.and_eq_true, decide_eq_true_eq] at hkeep
  subst hdy
  rcases hkeep with h | ⟨h1, _⟩
  · exact Nat.le_of_lt h
  · exact Nat.le_of_eq h1

/-- Witness for C10: the sample run has a nonzero 2020 histogram entry and
2019 ≤ 2020 follows from the theorem. -/
theorem c10_witness :
    (pipelineStats sampleFetch ["62012"]).dissolutionByYear 2020 ≠ 0 ∧ 2019 ≤ 2020 :=
  ⟨by decide, c10_histogram_years_ge_2019 sampleFetch ["62012"] 2020 (by decide)⟩
